import Mathlib

/-!
A shallow embedding of the request-dispatch pipeline of the
`typescript-template` HTTP server (src/Api.ts, src/Types.ts) in Lean 4,
together with theorems settling the specification claims about it.

Machine conventions of the embedding:
* JavaScript strings are Lean `String`; `undefined`-able values are `Option`.
* The express request object is `HttpRequest` (only the fields the pipeline
  reads: path, method, origin header, client ip).
* A middleware body is modelled by the observable action it performs:
  either it calls `next()` or it writes a response via
  `res.status(s).send(body)`.  Response bodies written by the pipeline are
  always of the shape with a single `error` field, so a body is modelled by
  that (optional) field.
* Error values are represented by their string representation, since the
  centralized error middleware serializes them with `err.toString()`.
-/

/-- Request data read by the pipeline: `req.path`, `req.method`,
`req.headers.origin` (absent for same-origin clients) and `req.ip`. -/
structure HttpRequest where
  path : String
  method : String
  origin : Option String
  ip : String

/-- Outcome of one guard predicate, from src/Types.ts: `accessPermitted`
with optional `error` and `statusCode` fields (the latter two are optional
in the interface, present by convention when access is denied). -/
structure GuardResult where
  accessPermitted : Bool
  error : Option String
  statusCode : Option Nat

/-- Guard predicate type `ApiKeyGuard` from src/Types.ts: called as
`guard(req, res, path, req.method)`.  The `res` argument is modelled away:
the guards observed by the pipeline only produce a `GuardResult`. -/
abbrev ApiKeyGuard : Type := HttpRequest → String → String → GuardResult

/-- HTTP method enumeration from src/Types.ts. -/
inductive ApiMethod where
  | POST
  | PUT
  | GET
  | DELETE
deriving DecidableEq

/-- String value of an `ApiMethod` (it is a TypeScript string enum, and
`handler.method === req.method` compares these strings). -/
def methodStr : ApiMethod → String
  | .POST => "POST"
  | .PUT => "PUT"
  | .GET => "GET"
  | .DELETE => "DELETE"

/-- Possible runtime behaviours of a route implementation, as observed by
the wrapping machinery: it succeeds, it throws during the synchronous part
of the invocation, or the promise it returns is rejected later.  Failure
values carry their string representation. -/
inductive HandlerBehavior where
  | succeeds
  | throwsSync (e : String)
  | rejectsAsync (e : String)

/-- Route declaration `RouteData` from src/Types.ts. -/
structure RouteData where
  path : String
  description : String
  routeImplementation : HandlerBehavior
  method : ApiMethod
  guards : Option (List ApiKeyGuard)

/-- Registered route `ApiRoute` from src/Types.ts: a `RouteData` plus the
compiled matcher `routeMatchTest` (used in boolean position by the guard
middleware, hence modelled as a `String → Bool`). -/
structure ApiRoute extends RouteData where
  routeMatchTest : String → Bool

/-- Observable action of one middleware body: call `next()` or write a
response with `res.status(s).send(body)`.  The status is `Option` because
the guard-denial path sends `statusCode!` which may be `undefined`; the
body is its optional `error` field. -/
inductive MwAction where
  | callNext
  | send (status : Option Nat) (errorField : Option String)

/-- Route resolution loop of `guardMiddleware` (src/Api.ts): iterate
`this.handlers` in order and take the first handler with
`handler.routeMatchTest(req.path) && handler.method === req.method`. -/
def findRoute (handlers : List ApiRoute) (reqPath reqMethod : String) :
    Option ApiRoute :=
  handlers.find? (fun h => h.routeMatchTest reqPath && methodStr h.method == reqMethod)

/-- Guard evaluation loop of `guardMiddleware` (src/Api.ts): evaluate the
guards sequentially; on the first result with `accessPermitted` false, send
`res.status(statusCode!).send(\x7b error: error! \x7d)` and stop; if all
pass (or there are none), fall through. -/
def runGuardList (req : HttpRequest) (path : String) (method : String) :
    List ApiKeyGuard → MwAction
  | [] => .callNext
  | g :: rest =>
    let r := g req path method
    if r.accessPermitted then runGuardList req path method rest
    else .send r.statusCode r.error

/-- Guard middleware body from src/Api.ts: OPTIONS requests are passed
through; otherwise the route is resolved (first match wins) and, when
`!routeInfo || req.method !== routeInfo.method || !path` (note `!path` is
JavaScript falsiness, true for the empty string), a 404 with error
"Unknown route" is sent; otherwise the guard list (when present) runs. -/
def guardMiddleware (handlers : List ApiRoute) (req : HttpRequest) : MwAction :=
  if req.method == "OPTIONS" then .callNext
  else
    match findRoute handlers req.path req.method with
    | none => .send (some 404) (some "Unknown route")
    | some routeInfo =>
      if methodStr routeInfo.method != req.method || routeInfo.path == "" then
        .send (some 404) (some "Unknown route")
      else
        match routeInfo.guards with
        | none => .callNext
        | some gs => runGuardList req routeInfo.path req.method gs

/-- Predicate of the route-resolution loop: the compiled matcher accepts
the request path and the declared method equals the request method. -/
def routeMatches (h : ApiRoute) (req : HttpRequest) : Prop :=
  h.routeMatchTest req.path = true ∧ methodStr h.method = req.method

/-! CORS stage (the `corsOptions.origin` function inside `init`).
The allow-list `CORS_WHITELIST` comes from src/Constants.ts, which is not
part of the sources at hand; the spec describes it only as a configured
allow-list of origin strings, so it is a parameter here. -/

/-- Decision the origin callback communicates to the cors library:
`callback(null, true)` to allow or `callback(new Error(...))` to deny. -/
inductive CorsCallback where
  | allow
  | deny (err : String)
deriving DecidableEq

/-- Origin-checking function of `corsOptions` in src/Api.ts, together with
the error-level log lines it emits.  The test
`!origin || CORS_WHITELIST.includes(origin) || origin.startsWith('http://localhost')`
is rendered case by case; note that `!origin` is JavaScript falsiness and
therefore also holds for a present-but-empty origin string. -/
def corsOrigin (whitelist : List String) (origin : Option String) :
    CorsCallback × List String :=
  match origin with
  | none => (.allow, [])
  | some o =>
    if o == "" || whitelist.contains o || o.startsWith "http://localhost" then
      (.allow, [])
    else
      (.deny "Not allowed by CORS",
       ["Request with origin of " ++ o ++ " is not allowed by CORS!"])

/-- Flow of a request past the cors middleware: when the origin callback
denies, the cors library forwards the error via `next(err)`, so the
request skips every later stage and lands at the error middleware. -/
inductive CorsFlow where
  | proceed
  | haltToError (err : String)
deriving DecidableEq

/-- Cors stage as wired in `init`: `this.httpServer.use(cors(corsOptions))`. -/
def corsStage (whitelist : List String) (req : HttpRequest) : CorsFlow :=
  match (corsOrigin whitelist req.origin).1 with
  | .allow => .proceed
  | .deny e => .haltToError e

/-! Logging stage. -/

/-- Client-ip normalization inside `loggingMiddleware`: when
`ip.substr(0, 7) == '::ffff:'` the prefix is dropped. -/
def normalizeIp (ip : String) : String :=
  if ip.take 7 == "::ffff:" then ip.drop 7 else ip

/-- Logging middleware body from src/Api.ts: builds the info-level log
line and always calls `next()`.  It returns the request it leaves behind
(unchanged: the body only reads `req`), the action, and the log lines. -/
def loggingMiddleware (req : HttpRequest) :
    HttpRequest × MwAction × List String :=
  (req, .callNext,
   ["Recieved request for " ++ req.method ++ " " ++ req.path ++ " from "
     ++ normalizeIp req.ip])

/-! Async wrapping and the centralized error middleware. -/

/-- Response written to the client: a definite status code and the
optional `error` field of the JSON body. -/
structure HttpResponse where
  status : Nat
  errorField : Option String
deriving DecidableEq

/-- Centralized error middleware from the end of `init`: logs the failure
and responds 500 with the string representation of the failure as the
`error` body field. -/
def errorMiddleware (err : String) : HttpResponse :=
  { status := 500, errorField := some err }

/-- Event produced by calling the function `asyncWrapper` returns:
either it completed, or it forwarded a failure to `next`, or a synchronous
throw escaped it (because `fn` threw before `Promise.resolve` ran). -/
inductive WrapperEvent where
  | completed
  | nextError (e : String)
  | threw (e : String)
deriving DecidableEq

/-- Semantics of `asyncWrapper` (src/Api.ts):
`Promise.resolve(fn(req, res, next)).catch(next)`.  A rejection of the
promise returned by `fn` is caught and forwarded to `next`; a synchronous
throw happens while evaluating `fn(req, res, next)` itself, before
`Promise.resolve` is applied, and so escapes the wrapper. -/
def asyncWrapperRun : HandlerBehavior → WrapperEvent
  | .succeeds => .completed
  | .throwsSync e => .threw e
  | .rejectsAsync e => .nextError e

/-- Express invokes every layer inside a try/catch and routes a
synchronous throw to `next(err)`; an explicit `next(err)` goes the same
way.  Either reaches the error middleware registered last in `init` (the
source comments on this split: the final error handler "only catches
synchronous errors", rejections are delivered to it by `asyncWrapper`). -/
def dispatchHandlerFailure : WrapperEvent → Option HttpResponse
  | .completed => none
  | .nextError e => some (errorMiddleware e)
  | .threw e => some (errorMiddleware e)

/-- Full failure path of one wrapped route handler: behaviour of the
handler, through `asyncWrapper`, through the express layer, to the error
middleware. -/
def handlerErrorResponse (b : HandlerBehavior) : Option HttpResponse :=
  dispatchHandlerFailure (asyncWrapperRun b)

/-! Execution of the guard stage, including the underlying HTTP send.
This layer models what `res.status(s).send(body)` does in express on top
of the Node http module: `writeHead` coerces the status with
`statusCode |= 0` and rejects anything outside 100..999 by throwing
ERR_HTTP_INVALID_STATUS_CODE, so sending with a missing status throws. -/

/-- Result of actually sending a response with an optional status code. -/
inductive SendResult where
  | sent (r : HttpResponse)
  | threw (e : String)
deriving DecidableEq

/-- Underlying send: a present, in-range status produces a response on the
wire; a missing status (coerced to 0) makes `writeHead` throw. -/
def httpSend (status : Option Nat) (errorField : Option String) : SendResult :=
  match status with
  | some n =>
    if 100 ≤ n && n ≤ 999 then .sent { status := n, errorField := errorField }
    else .threw "RangeError: Invalid status code"
  | none => .threw "RangeError: Invalid status code"

/-- Outcome of the guard stage for the request as a whole. -/
inductive StageOutcome where
  | proceed
  | responded (r : HttpResponse)
deriving DecidableEq

/-- Guard stage as wired in `init`:
`this.httpServer.use(this.asyncWrapper(this.guardMiddleware.bind(this)))`.
When the middleware body sends, the send either succeeds or throws; a
throw inside the async body rejects its promise, `asyncWrapper` catches it
with `.catch(next)`, and the error middleware answers 500. -/
def runGuardStage (handlers : List ApiRoute) (req : HttpRequest) : StageOutcome :=
  match guardMiddleware handlers req with
  | .callNext => .proceed
  | .send st e =>
    match httpSend st e with
    | .sent r => .responded r
    | .threw msg => .responded (errorMiddleware msg)

/-! Constructor and registration (the `Api` class constructor). -/

/-- Compiled matcher for a declared path.  In the source this is
`match(r.path, \x7b decode: decodeURIComponent \x7d)` from path-to-regexp;
for the parameter-free static patterns this template declares, the
compiled matcher accepts exactly the declared path. -/
def compileMatcher (path : String) : String → Bool :=
  fun p => p == path

/-- JavaScript `Map` as an insertion-ordered association list: inserting
an existing key overwrites its value in place, a new key is appended. -/
def jsMapInsert (m : List (String × ApiRoute)) (k : String) (v : ApiRoute) :
    List (String × ApiRoute) :=
  if m.any (fun kv => kv.1 == k) then
    m.map (fun kv => if kv.1 == k then (k, v) else kv)
  else m ++ [(k, v)]

/-- JavaScript `new Map(entries)`: fold the entry list into an empty map,
so a later entry with a duplicate key silently overwrites the earlier. -/
def jsMapOfList (l : List (String × ApiRoute)) : List (String × ApiRoute) :=
  l.foldl (fun m kv => jsMapInsert m kv.1 kv.2) []

/-- Lookup in the modelled JavaScript `Map`. -/
def jsLookup (m : List (String × ApiRoute)) (k : String) : Option ApiRoute :=
  (m.find? (fun kv => kv.1 == k)).map (fun kv => kv.2)

/-- Key used by the constructor for the handler map:
`` `$\x7bh.path\x7d-$\x7bh.method\x7d` ``. -/
def mapKey (path : String) (method : ApiMethod) : String :=
  path ++ "-" ++ methodStr method

/-- State the `Api` constructor builds: the ordered handler list and the
direct-lookup handler map. -/
structure ApiObj where
  handlers : List ApiRoute
  handlerMap : List (String × ApiRoute)

/-- Constructor of the `Api` class, parameterized by the declared route
list (`this.routeData`; the template instantiates it with the single
status route): attach a compiled matcher to every declaration, then build
the map keyed by path and method.  No validation of any kind happens. -/
def mkApi (routeData : List RouteData) : ApiObj :=
  let handlers := routeData.map
    (fun r => { toRouteData := r, routeMatchTest := compileMatcher r.path })
  { handlers := handlers,
    handlerMap := jsMapOfList
      (handlers.map (fun h => (mapKey h.path h.method, h))) }

/-! Lifecycle state machine (`start`, `stop`, `init`). -/

/-- One registration `init` performs on the shared express application. -/
inductive Reg where
  | corsUse
  | corsOptionsRoute
  | loggingUse
  | guardUse
  | jsonUse
  | route (method : ApiMethod) (path : String)
  | errorHandler
deriving DecidableEq

/-- Registrations `init` appends, in order: cors, the OPTIONS catch-all,
logging, guard, json body parsing, one route registration per handler,
then the error handler. -/
def pipelineRegs (handlers : List ApiRoute) : List Reg :=
  [.corsUse, .corsOptionsRoute, .loggingUse, .guardUse, .jsonUse]
    ++ handlers.map (fun h => .route h.method h.path)
    ++ [.errorHandler]

/-- Mutable server state of the `Api` object: the `running` flag, the
express application (as its accumulated registrations plus the trust-proxy
setting), the most recent `listen` handle, and instrumentation counting
`init` runs and `listen` calls (each `listen` call asks the OS to bind a
listening socket on SERVER_PORT). -/
structure ApiState where
  running : Bool
  trustProxy : Bool
  app : List Reg
  runningServer : Option Nat
  initCount : Nat
  listenCalls : Nat
deriving DecidableEq

/-- State of a freshly constructed `Api`: not running, nothing registered
on the express application, no server handle. -/
def freshState : ApiState :=
  { running := false, trustProxy := false, app := [], runningServer := none,
    initCount := 0, listenCalls := 0 }

/-- Effect of `init` on the server state: sets trust proxy and appends the
whole pipeline to the (shared, never reset) express application. -/
def initApi (handlers : List ApiRoute) (s : ApiState) : ApiState :=
  { s with
    trustProxy := true,
    app := s.app ++ pipelineRegs handlers,
    initCount := s.initCount + 1 }

/-- Method `start` from src/Api.ts: `init` runs only when not `running`;
then `running` is set and `listen` is called unconditionally, its handle
replacing `this.runningServer`. -/
def startApi (handlers : List ApiRoute) (s : ApiState) : ApiState :=
  let s1 := if s.running then s else initApi handlers s
  { s1 with
    running := true,
    runningServer := some s1.listenCalls,
    listenCalls := s1.listenCalls + 1 }

/-- Method `stop` from src/Api.ts: when running, awaits the close of
`this.runningServer` and clears `running`; the await resolves only when a
handle exists (`if (this.runningServer)`), so stopping a running server
without a handle never returns, modelled as `none`.  Stopping while not
running is a no-op. -/
def stopApi (s : ApiState) : Option ApiState :=
  if s.running then
    match s.runningServer with
    | some _ => some { s with running := false }
    | none => none
  else some s

/-! Helper lemmas, shared by several claim theorems. -/

/-- Denial behaviour of the guard loop: once every guard left of `g`
permits and `g` denies, the loop answers with the fields of `g`, whatever
guards follow. -/
lemma runGuardList_append_deny (req : HttpRequest) (path method : String)
    (g : ApiKeyGuard) (hg : (g req path method).accessPermitted = false) :
    ∀ (pre rest : List ApiKeyGuard),
      (∀ g' ∈ pre, (g' req path method).accessPermitted = true) →
      runGuardList req path method (pre ++ g :: rest) =
        .send (g req path method).statusCode (g req path method).error := by
  intro pre
  induction pre with
  | nil =>
    intro rest _
    simp [runGuardList, hg]
  | cons p ps ih =>
    intro rest hpre
    have hp : (p req path method).accessPermitted = true := hpre p (by simp)
    simpa [runGuardList, hp] using
      ih rest (fun g' hg' => hpre g' (by simp [hg']))

/-- Resolution facts extracted from a successful `findRoute`. -/
lemma findRoute_props {handlers : List ApiRoute} {reqPath reqMethod : String}
    {route : ApiRoute}
    (hfind : findRoute handlers reqPath reqMethod = some route) :
    route.routeMatchTest reqPath = true ∧ methodStr route.method = reqMethod := by
  have h := List.find?_some hfind
  simp only [Bool.and_eq_true, beq_iff_eq] at h
  exact h

/-- Guard middleware outcome when a matched route has a denying guard:
the middleware sends exactly the fields of the first denying guard. -/
lemma guardMiddleware_denies (handlers : List ApiRoute) (req : HttpRequest)
    (route : ApiRoute) (pre rest : List ApiKeyGuard) (g : ApiKeyGuard)
    (hm : req.method ≠ "OPTIONS")
    (hfind : findRoute handlers req.path req.method = some route)
    (hpath : route.path ≠ "")
    (hguards : route.guards = some (pre ++ g :: rest))
    (hpre : ∀ g' ∈ pre, (g' req route.path req.method).accessPermitted = true)
    (hg : (g req route.path req.method).accessPermitted = false) :
    guardMiddleware handlers req =
      .send (g req route.path req.method).statusCode
            (g req route.path req.method).error := by
  have hopt : (req.method == "OPTIONS") = false := by
    simpa using hm
  have hmeq : methodStr route.method = req.method := (findRoute_props hfind).2
  have hpne : (route.path == "") = false := by
    simpa using hpath
  simp only [guardMiddleware, hopt, Bool.false_eq_true, if_false, hfind]
  simp only [hmeq, bne_self_eq_false, hpne, Bool.or_self, Bool.false_eq_true,
    if_false, hguards]
  exact runGuardList_append_deny req route.path req.method g hg pre rest hpre

/-- First-match behaviour of `List.find?`: with every element of `pre`
failing the predicate and `a` passing it, the first hit in
`pre ++ a :: post` is `a`. -/
lemma find?_first {α : Type} (p : α → Bool) (a : α) (ha : p a = true) :
    ∀ (pre post : List α), (∀ x ∈ pre, p x = false) →
      List.find? p (pre ++ a :: post) = some a := by
  intro pre
  induction pre with
  | nil =>
    intro post _
    simp [List.find?, ha]
  | cons x xs ih =>
    intro post hpre
    have hx : p x = false := hpre x (by simp)
    simpa [List.find?, hx] using ih post (fun y hy => hpre y (by simp [hy]))

/-- Guard always denying with 403/"nope", used as concrete input. -/
def denyGuard : ApiKeyGuard := fun _ _ _ =>
  { accessPermitted := false, error := some "nope", statusCode := some 403 }

/-- Concrete guarded route at path "/secret". -/
def secretRoute : ApiRoute :=
  { path := "/secret", description := "guarded", method := .GET,
    routeImplementation := .succeeds, guards := some [denyGuard],
    routeMatchTest := compileMatcher "/secret" }

/-- Concrete GET request for "/secret". -/
def secretReq : HttpRequest :=
  { path := "/secret", method := "GET", origin := none, ip := "1.2.3.4" }

/-! Claim theorems. -/

/-- C1: for every route with a guard chain and every request matching that
route (method not OPTIONS), the guards run sequentially in declared order;
on the first guard returning `accessPermitted = false` the response
carries exactly that denying guard statusCode and error message, and no
guard at a later index is evaluated (the outcome is the same for every
choice of the guards past the denying one). -/
theorem guard_chain_short_circuits (handlers : List ApiRoute)
    (req : HttpRequest) (route : ApiRoute) (pre rest : List ApiKeyGuard)
    (g : ApiKeyGuard)
    (hm : req.method ≠ "OPTIONS")
    (hfind : findRoute handlers req.path req.method = some route)
    (hpath : route.path ≠ "")
    (hguards : route.guards = some (pre ++ g :: rest))
    (hpre : ∀ g' ∈ pre, (g' req route.path req.method).accessPermitted = true)
    (hg : (g req route.path req.method).accessPermitted = false) :
    guardMiddleware handlers req =
      .send (g req route.path req.method).statusCode
            (g req route.path req.method).error
    ∧ ∀ rest2 : List ApiKeyGuard,
        runGuardList req route.path req.method (pre ++ g :: rest2) =
          .send (g req route.path req.method).statusCode
                (g req route.path req.method).error := by
  constructor
  · exact guardMiddleware_denies handlers req route pre rest g
      hm hfind hpath hguards hpre hg
  · intro rest2
    exact runGuardList_append_deny req route.path req.method g hg pre rest2 hpre

/-- Witness for C1: a route guarded by a single always-denying guard with
status 403 and message "nope" answers exactly 403/"nope". -/
theorem guard_chain_short_circuits_witness :
    guardMiddleware [secretRoute] secretReq = .send (some 403) (some "nope") := by
  exact (guard_chain_short_circuits [secretRoute] secretReq secretRoute
    [] [] denyGuard (by decide) rfl (by decide) rfl (by simp) rfl).1

/-- C2: route resolution takes the first declared route whose matcher
accepts the path and whose method equals the request method; when no
registered route satisfies both, the guard middleware responds 404 with
error body "Unknown route" (and so the pipeline halts: the action is a
send, not a call of next).  OPTIONS requests never reach resolution (see
the theorem for C3). -/
theorem route_resolution_first_match (handlers : List ApiRoute)
    (req : HttpRequest) (hm : req.method ≠ "OPTIONS") :
    ((∀ h ∈ handlers, ¬ routeMatches h req) →
      guardMiddleware handlers req = .send (some 404) (some "Unknown route"))
    ∧ (∀ pre post (h : ApiRoute), handlers = pre ++ h :: post →
        routeMatches h req → (∀ h' ∈ pre, ¬ routeMatches h' req) →
        findRoute handlers req.path req.method = some h) := by
  have hopt : (req.method == "OPTIONS") = false := by simpa using hm
  have hbool : ∀ h : ApiRoute,
      (h.routeMatchTest req.path && (methodStr h.method == req.method)) = true
        ↔ routeMatches h req := by
    intro h
    simp [routeMatches, Bool.and_eq_true]
  constructor
  · intro hnone
    have hfind : findRoute handlers req.path req.method = none := by
      rw [findRoute, List.find?_eq_none]
      intro h hmem
      intro hp
      exact hnone h hmem ((hbool h).mp hp)
    simp [guardMiddleware, hopt, hfind]
  · intro pre post h hsplit hmatch hpre
    rw [hsplit, findRoute]
    apply find?_first _ h ((hbool h).mpr hmatch)
    intro x hx
    cases hb : (x.routeMatchTest req.path && (methodStr x.method == req.method))
    · rfl
    · exact absurd ((hbool x).mp hb) (hpre x hx)

/-- Concrete route registry holding only the status route of the template
(path "/", method GET, no guards). -/
def statusRoute : ApiRoute :=
  { path := "/", description := "Check the API is online", method := .GET,
    routeImplementation := .succeeds, guards := none,
    routeMatchTest := compileMatcher "/" }

/-- Witness for C2: a GET request for the undeclared path "/missing"
against the registry holding only the status route gets the 404 with
error "Unknown route". -/
theorem route_resolution_first_match_witness :
    guardMiddleware [statusRoute]
      { path := "/missing", method := "GET", origin := none, ip := "1.2.3.4" } =
      .send (some 404) (some "Unknown route") := by
  refine (route_resolution_first_match [statusRoute]
    { path := "/missing", method := "GET", origin := none, ip := "1.2.3.4" }
    (by decide)).1 ?_
  intro h hmem hmatch
  rw [List.mem_singleton] at hmem
  rw [hmem] at hmatch
  exact absurd hmatch.1 (by decide)

/-- C3: for every request with method OPTIONS the guard middleware calls
through unconditionally, whatever routes and guards are registered: no
route resolution happens and no guard can deny the request. -/
theorem options_requests_bypass_guards (handlers : List ApiRoute)
    (req : HttpRequest) (hm : req.method = "OPTIONS") :
    guardMiddleware handlers req = .callNext := by
  simp [guardMiddleware, hm]

/-- Witness for C3: an OPTIONS request for "/secret" passes the guard
stage although the declared route at that path has an always-denying
guard. -/
theorem options_requests_bypass_guards_witness :
    guardMiddleware [secretRoute]
      { path := "/secret", method := "OPTIONS", origin := none,
        ip := "1.2.3.4" } = .callNext := by
  exact options_requests_bypass_guards [secretRoute] _ rfl

/-- C4: a route handler failure, whether thrown synchronously during
invocation or delivered as a later rejection of the returned promise,
reaches the one centralized error middleware, which answers 500 with the
string representation of the failure as the error body; for the same
failure value both delivery modes produce the identical response. -/
theorem sync_async_failures_unified (e : String) :
    handlerErrorResponse (.throwsSync e) =
      some { status := 500, errorField := some e }
    ∧ handlerErrorResponse (.rejectsAsync e) =
      some { status := 500, errorField := some e }
    ∧ handlerErrorResponse (.throwsSync e) =
      handlerErrorResponse (.rejectsAsync e) := by
  exact ⟨rfl, rfl, rfl⟩

/-- Counterexample to C5 as stated: an Origin header that is present but
empty is permitted by the code (JavaScript `!origin` is true for the
empty string), although it is neither absent, nor in the (here empty)
allow-list, nor prefixed by http://localhost. -/
theorem cors_empty_origin_counterexample :
    (corsOrigin [] (some "")).1 = CorsCallback.allow
    ∧ ¬ ((some "" : Option String) = none
          ∨ "" ∈ ([] : List String)
          ∨ "".startsWith "http://localhost" = true) := by
  constructor
  · rfl
  · intro hc
    rcases hc with hc | hc | hc
    · exact Option.some_ne_none _ hc
    · exact (List.not_mem_nil _) hc
    · exact absurd hc (by decide)


/-- Propositional reading of the boolean origin test of `corsOrigin`. -/
lemma corsCond_iff (whitelist : List String) (o : String) :
    (o == "" || whitelist.contains o || o.startsWith "http://localhost") = true
      ↔ (o = "" ∨ o ∈ whitelist ∨ o.startsWith "http://localhost" = true) := by
  simp [Bool.or_eq_true, or_assoc, List.elem_iff]

/-- C5 amended: the CORS stage permits a request exactly when the origin
is absent, or present but empty (JavaScript falsiness of the header
value), or in the configured allow-list, or prefixed by http://localhost;
on denial it emits an error-level log line containing the offending
origin and the request halts to the error path instead of proceeding to
later stages. -/
theorem cors_policy_amended (whitelist : List String)
    (origin : Option String) :
    ((corsOrigin whitelist origin).1 = CorsCallback.allow ↔
      (origin = none ∨ origin = some ""
        ∨ ∃ o, origin = some o
            ∧ (o ∈ whitelist ∨ o.startsWith "http://localhost" = true)))
    ∧ (∀ o, origin = some o →
        (corsOrigin whitelist origin).1 ≠ CorsCallback.allow →
        (corsOrigin whitelist origin).2 =
          ["Request with origin of " ++ o ++ " is not allowed by CORS!"]
        ∧ ∀ req : HttpRequest, req.origin = origin →
            corsStage whitelist req ≠ CorsFlow.proceed) := by
  constructor
  · cases origin with
    | none => simp [corsOrigin]
    | some o =>
      simp only [corsOrigin]
      by_cases hc : (o == "" || whitelist.contains o
          || o.startsWith "http://localhost") = true
      · rw [if_pos hc]
        refine iff_of_true rfl ?_
        rcases (corsCond_iff whitelist o).mp hc with h | h | h
        · exact Or.inr (Or.inl (by rw [h]))
        · exact Or.inr (Or.inr ⟨o, rfl, Or.inl h⟩)
        · exact Or.inr (Or.inr ⟨o, rfl, Or.inr h⟩)
      · rw [if_neg hc]
        have hc' : ¬ (o = "" ∨ o ∈ whitelist
            ∨ o.startsWith "http://localhost" = true) :=
          fun h => hc ((corsCond_iff whitelist o).mpr h)
        refine iff_of_false (by simp) ?_
        rintro (h | h | ⟨o', ho', hperm⟩)
        · exact absurd h (by simp)
        · rw [Option.some_inj] at h
          exact hc' (Or.inl h)
        · rw [Option.some_inj] at ho'
          subst ho'
          exact hc' (Or.inr hperm)
  · intro o ho hdeny
    subst ho
    by_cases hc : (o == "" || whitelist.contains o
        || o.startsWith "http://localhost") = true
    · exact absurd (by simp only [corsOrigin]; rw [if_pos hc]) hdeny
    · constructor
      · simp only [corsOrigin]
        rw [if_neg hc]
      · intro req hreq
        simp only [corsStage, hreq, corsOrigin]
        rw [if_neg hc]
        simp

/-- Witness for the amended C5: a request with origin http://evil.ex
against the allow-list holding only https://app.example is denied and
the error log line names the offending origin. -/
theorem cors_policy_amended_witness :
    (corsOrigin ["https://app.example"] (some "http://evil.ex")).2 =
      ["Request with origin of http://evil.ex is not allowed by CORS!"] := by
  exact ((cors_policy_amended ["https://app.example"]
    (some "http://evil.ex")).2 "http://evil.ex" rfl (by decide)).1

/-- Counterexample to C6 as stated: starting twice from fresh state runs
`init` only once, but the second `start` call is not a no-op with respect
to binding: `listen` is called a second time (a second bind attempt on the
same port), and the stored server handle is replaced, so the resulting
state differs from the state after the first call. -/
theorem start_twice_counterexample :
    (startApi [] (startApi [] freshState)).initCount = 1
    ∧ (startApi [] (startApi [] freshState)).listenCalls = 2
    ∧ ¬ (startApi [] (startApi [] freshState)) = startApi [] freshState := by
  refine ⟨rfl, rfl, ?_⟩
  intro h
  have := congrArg ApiState.listenCalls h
  simp [startApi, initApi, freshState] at this

/-- C6 amended: a second `start()` on a running server performs no
further initialization (`init` is skipped, the pipeline is not appended
again), but it is not a no-op with respect to binding: it calls `listen`
once more and replaces the stored server handle. -/
theorem start_idempotent_amended (handlers : List ApiRoute) (s : ApiState)
    (h : s.running = true) :
    (startApi handlers s).initCount = s.initCount
    ∧ (startApi handlers s).app = s.app
    ∧ (startApi handlers s).listenCalls = s.listenCalls + 1
    ∧ (startApi handlers s).runningServer = some s.listenCalls := by
  simp [startApi, h]

/-- Witness for the amended C6: second start from fresh state. -/
theorem start_idempotent_amended_witness :
    (startApi [] (startApi [] freshState)).initCount = 1
    ∧ (startApi [] (startApi [] freshState)).app =
        (startApi [] freshState).app
    ∧ (startApi [] (startApi [] freshState)).listenCalls = 2 := by
  have w := start_idempotent_amended [] (startApi [] freshState) rfl
  exact ⟨w.1, w.2.1, w.2.2.1⟩

/-- C10: in the sequence start, stop, start from fresh state, the stop
leaves `running` false, so the second start runs `init` a second time on
the same express application, appending a second copy of every pipeline
middleware and route registration. -/
theorem restart_reinitializes (handlers : List ApiRoute) :
    ∃ s2, stopApi (startApi handlers freshState) = some s2
      ∧ s2.running = false
      ∧ (startApi handlers s2).initCount = 2
      ∧ (startApi handlers s2).app =
          pipelineRegs handlers ++ pipelineRegs handlers := by
  refine ⟨_, rfl, rfl, rfl, ?_⟩
  simp [startApi, stopApi, initApi, freshState]

/-- Lookup of one cons cell of the modelled JavaScript map. -/
lemma jsLookup_cons (x : String × ApiRoute) (l : List (String × ApiRoute))
    (k : String) :
    jsLookup (x :: l) k =
      if (x.1 == k) = true then some x.2 else jsLookup l k := by
  by_cases h : (x.1 == k) = true
  · simp [jsLookup, List.find?, h]
  · have hf : (x.1 == k) = false := by simpa using h
    simp [jsLookup, List.find?, hf]

/-- Inserting a key into the modelled JavaScript map makes that key map to
the inserted value, whether the key was present (overwrite in place) or
absent (append). -/
lemma jsLookup_insert_self :
    ∀ (m : List (String × ApiRoute)) (k : String) (v : ApiRoute),
      jsLookup (jsMapInsert m k v) k = some v := by
  intro m k v
  induction m with
  | nil => simp [jsMapInsert, jsLookup, List.find?]
  | cons kv m' ih =>
    by_cases hk : (kv.1 == k) = true
    · have hany : ((kv :: m').any (fun p => p.1 == k)) = true := by
        simp [List.any_cons, hk]
      simp only [jsMapInsert, hany, if_true, List.map_cons, hk]
      rw [jsLookup_cons]
      simp
    · have hkf : (kv.1 == k) = false := by simpa using hk
      by_cases hany' : (m'.any (fun p => p.1 == k)) = true
      · have hany : ((kv :: m').any (fun p => p.1 == k)) = true := by
          simp [List.any_cons, hany']
        have hins : jsMapInsert m' k v =
            m'.map (fun p => if p.1 == k then (k, v) else p) := by
          simp [jsMapInsert, hany']
        simp only [jsMapInsert, hany, if_true, List.map_cons, hkf,
          Bool.false_eq_true, if_false]
        rw [jsLookup_cons, if_neg (by simp [hkf]), ← hins]
        exact ih
      · have hanyf : (m'.any (fun p => p.1 == k)) = false :=
          Bool.eq_false_iff.mpr hany'
        have hany : ((kv :: m').any (fun p => p.1 == k)) = false := by
          simp [List.any_cons, hkf, hanyf]
        have hins : jsMapInsert m' k v = m' ++ [(k, v)] := by
          simp [jsMapInsert, hanyf]
        simp only [jsMapInsert, hany, Bool.false_eq_true, if_false,
          List.cons_append]
        rw [jsLookup_cons, if_neg (by simp [hkf]), ← hins]
        exact ih

/-- Building the modelled JavaScript map from an entry list ending in a
given entry is inserting that entry last. -/
lemma jsMapOfList_snoc (l : List (String × ApiRoute)) (k : String)
    (v : ApiRoute) :
    jsMapOfList (l ++ [(k, v)]) = jsMapInsert (jsMapOfList l) k v := by
  simp [jsMapOfList, List.foldl_append]

/-- Route declaration used as concrete colliding input (first copy). -/
def dupRouteA : RouteData :=
  { path := "/x", description := "first", routeImplementation := .succeeds,
    method := .GET, guards := none }

/-- Route declaration used as concrete colliding input (second copy). -/
def dupRouteB : RouteData :=
  { path := "/x", description := "second", routeImplementation := .succeeds,
    method := .GET, guards := none }

/-- Counterexample to C7 as stated: registering two declarations that
collide on (path, method) does not fail at all: the constructor returns
normally, both declarations stay in the dispatch list, and in the lookup
map the later declaration silently shadows the earlier one. -/
theorem duplicate_route_counterexample :
    (mkApi [dupRouteA, dupRouteB]).handlers.length = 2
    ∧ (mkApi [dupRouteA, dupRouteB]).handlerMap.length = 1
    ∧ ((jsLookup (mkApi [dupRouteA, dupRouteB]).handlerMap "/x-GET").map
        (fun h => h.description)) = some "second" := by
  exact ⟨rfl, rfl, rfl⟩

/-- C7 amended: registration never validates (path, method) collisions:
for every declaration list, every declaration is kept, in order, in the
dispatch list, and the direct-lookup map binds a key to the value of the
last declaration with that key, so a later duplicate silently shadows an
earlier one there. -/
theorem registration_no_collision_check (rs : List RouteData)
    (r : RouteData) :
    ((mkApi (rs ++ [r])).handlers.length = rs.length + 1)
    ∧ jsLookup (mkApi (rs ++ [r])).handlerMap (mapKey r.path r.method) =
        some { toRouteData := r, routeMatchTest := compileMatcher r.path } := by
  constructor
  · simp [mkApi]
  · simp only [mkApi, List.map_append, List.map_cons, List.map_nil]
    rw [jsMapOfList_snoc]
    exact jsLookup_insert_self _ _ _

/-- C8: when a matched route has a guard chain whose first denying guard
carries no `statusCode`, the request still ends in a response with status
500: the denial path sends the missing status unchecked, the underlying
send rejects the invalid status by throwing, the rejection is caught by
`asyncWrapper` and forwarded to the centralized error middleware, which
answers 500; the process neither silently succeeds nor crashes. -/
theorem missing_status_code_yields_500 (handlers : List ApiRoute)
    (req : HttpRequest) (route : ApiRoute) (pre rest : List ApiKeyGuard)
    (g : ApiKeyGuard)
    (hm : req.method ≠ "OPTIONS")
    (hfind : findRoute handlers req.path req.method = some route)
    (hpath : route.path ≠ "")
    (hguards : route.guards = some (pre ++ g :: rest))
    (hpre : ∀ g' ∈ pre, (g' req route.path req.method).accessPermitted = true)
    (hg : (g req route.path req.method).accessPermitted = false)
    (hsc : (g req route.path req.method).statusCode = none) :
    runGuardStage handlers req =
      .responded
        { status := 500,
          errorField := some "RangeError: Invalid status code" } := by
  have hmw := guardMiddleware_denies handlers req route pre rest g
    hm hfind hpath hguards hpre hg
  simp [runGuardStage, hmw, hsc, httpSend, errorMiddleware]

/-- Guard that denies without a statusCode, used as concrete input. -/
def noStatusGuard : ApiKeyGuard := fun _ _ _ =>
  { accessPermitted := false, error := some "nope", statusCode := none }

/-- Concrete route whose only guard denies without a statusCode. -/
def noStatusRoute : ApiRoute :=
  { path := "/bad", description := "missing status", method := .GET,
    routeImplementation := .succeeds, guards := some [noStatusGuard],
    routeMatchTest := compileMatcher "/bad" }

/-- Witness for C8: the concrete route with the statusCode-less denying
guard makes the guard stage answer 500. -/
theorem missing_status_code_yields_500_witness :
    runGuardStage [noStatusRoute]
      { path := "/bad", method := "GET", origin := none, ip := "1.2.3.4" } =
      .responded
        { status := 500,
          errorField := some "RangeError: Invalid status code" } := by
  exact missing_status_code_yields_500 [noStatusRoute] _ noStatusRoute
    [] [] noStatusGuard (by decide) rfl (by decide) rfl (by simp) rfl rfl

/-- C9: the logging middleware leaves the request unchanged, never
short-circuits (its action is always a call of next, never a send), and
the client ip it logs has a leading IPv4-mapped-IPv6 prefix stripped: a
client arriving as ::ffff:203.0.113.5 is logged as 203.0.113.5. -/
theorem logging_observer_only (req : HttpRequest) :
    (loggingMiddleware req).1 = req
    ∧ (loggingMiddleware req).2.1 = MwAction.callNext
    ∧ (req.ip = "::ffff:203.0.113.5" →
        (loggingMiddleware req).2.2 =
          ["Recieved request for " ++ req.method ++ " " ++ req.path
            ++ " from " ++ "203.0.113.5"]) := by
  refine ⟨rfl, rfl, ?_⟩
  intro h
  simp only [loggingMiddleware, h]
  rfl

/-- Witness for C9: a GET request for "/" from ::ffff:203.0.113.5 is
logged with the bare IPv4 address. -/
theorem logging_observer_only_witness :
    (loggingMiddleware
      { path := "/", method := "GET", origin := none,
        ip := "::ffff:203.0.113.5" }).2.2 =
      ["Recieved request for GET / from 203.0.113.5"] := by
  exact (logging_observer_only
    { path := "/", method := "GET", origin := none,
      ip := "::ffff:203.0.113.5" }).2.2 rfl
